import Mathlib

/-!
Shallow embedding of the AFC-Klipper-Add-On lane control and motor assist
engine (`extras/AFC_stepper.py` and `extras/wheel_sensor.py`), together with
theorems settling the specification claims about it.

Modelling conventions:
* Python floats are modelled as `ℚ` where the source only uses field
  operations and comparisons, and as `ℝ` where the source uses `math.sqrt`,
  `math.pi` or `** 0.5`.
* The Klipper reactor clock is idealised: `reactor.pause(monotonic() + 0.1)`
  advances time by exactly one decisecond, and everything else is
  instantaneous.  Loop timeouts are therefore measured in deciseconds
  (`2.0 s = 20`, `tension_max_time` becomes a natural number of deciseconds).
* A sensor is an oracle `ℕ → Option α` giving the value returned by the
  n-th call to `get_rpm` (`none` models the `(None, None)` return).
* Motor commands (`self.assist(value)`) are recorded in an ordered trace
  `List ℝ`; hardware pins are write-only in the source, so the trace is a
  faithful abstraction.
-/

namespace AFC

/-! ### Wheel sensor (`extras/wheel_sensor.py`, `StandaloneWheelSensor`) -/

/-- Mutable state of `StandaloneWheelSensor` that `get_rpm` touches:
`pulses_per_rev` (config, float), the pulse accumulator `_pulse_count`
and the last sample timestamp `_last_time`. -/
structure WheelSensor where
  pulses_per_rev : ℚ
  pulse_count : ℚ
  last_time : ℚ

/-- `StandaloneWheelSensor.get_rpm`, called at wall-clock time `now`:
returns the reported `(wheel_rpm, motor_rpm)` pair and the updated sensor
state.  Mirrors the source: `dt = now - last_time`; if `dt <= 0` return
`(None, None)` without resetting; otherwise reset the accumulator and
timestamp and report `rpm = (pulses / pulses_per_rev) / dt * 60` twice. -/
def get_rpm (s : WheelSensor) (now : ℚ) : (Option ℚ × Option ℚ) × WheelSensor :=
  let dt := now - s.last_time
  if dt ≤ 0 then ((none, none), s)
  else
    let pulses := s.pulse_count
    let rpm := pulses / s.pulses_per_rev / dt * 60
    ((some rpm, some rpm), { s with pulse_count := 0, last_time := now })

/-! ### Motion segmenter (`AFCExtruderStepper.move` / `_move`) -/

/-- The list of (unsigned) per-segment distances produced by the
`while move_total > 0` loop of `AFCExtruderStepper.move`:
`move_value = max_move_dis if move_total > max_move_dis else move_total`.
The `0 < maxd` conjunct of the guard makes the function total; the source
loop never terminates when `max_move_dis ≤ 0 < move_total`. -/
def segmentDistances (maxd move_total : ℚ) : List ℚ :=
  if h : 0 < move_total ∧ 0 < maxd then
    let mv := if maxd < move_total then maxd else move_total
    mv :: segmentDistances maxd (move_total - mv)
  else []
termination_by Nat.ceil (move_total / maxd)
decreasing_by
  rcases h with ⟨ht, hm⟩
  split
  next hlt =>
    have hq : (move_total - maxd) / maxd = move_total / maxd - 1 := by
      field_simp
    rw [hq]
    have h0 : (0:ℚ) ≤ move_total / maxd - 1 := by
      have h1 : (1:ℚ) ≤ move_total / maxd := (one_le_div hm).mpr hlt.le
      linarith
    have h2 : ((Nat.ceil (move_total / maxd - 1) : ℚ)) < (move_total / maxd - 1) + 1 :=
      Nat.ceil_lt_add_one h0
    have h3 : ((Nat.ceil (move_total / maxd - 1) : ℚ)) < move_total / maxd := by linarith
    exact Nat.lt_ceil.mpr h3
  next hlt =>
    have hq : (move_total - move_total) / maxd = 0 := by
      rw [sub_self, zero_div]
    rw [hq]
    simp only [Nat.ceil_zero]
    exact Nat.ceil_pos.mpr (div_pos ht hm)

/-- The signed segment list issued by `AFCExtruderStepper.move` for a request
of `distance`: `direction = 1 if distance > 0 else -1`, segments of
`abs(distance)`, each multiplied back by the direction. -/
def signedSegments (maxd distance : ℚ) : List ℚ :=
  (segmentDistances maxd |distance|).map (· * (if 0 < distance then 1 else -1))

/-- Observable events of a `move` call: `_move` for one segment executes the
segment inside an `assist_move` guard, so with `assist_active` each segment
is preceded by an assist-session begin and followed by its end. -/
inductive MoveEvent
  | sessionBegin
  | segment (d : ℚ)
  | sessionEnd
deriving DecidableEq, Repr

/-- Event trace of one `AFCExtruderStepper._move(move_value, ...)` call:
the body runs `with self.assist_move(speed, distance < 0, assist_active)`,
which opens an assist session (sets the Exclusion Flag) exactly when
`assist_active` is true, executes the segment, and closes the session. -/
def moveEvents (d : ℚ) (assist_active : Bool) : List MoveEvent :=
  if assist_active then [.sessionBegin, .segment d, .sessionEnd] else [.segment d]

/-- Event trace of the `while move_total > 0` loop of
`AFCExtruderStepper.move`: each iteration calls `_move` on one segment.
Totality guard as in `segmentDistances`. -/
def moveLoop (maxd direction : ℚ) (assist_active : Bool) (move_total : ℚ) :
    List MoveEvent :=
  if h : 0 < move_total ∧ 0 < maxd then
    let mv := if maxd < move_total then maxd else move_total
    moveEvents (mv * direction) assist_active ++
      moveLoop maxd direction assist_active (move_total - mv)
  else []
termination_by Nat.ceil (move_total / maxd)
decreasing_by
  rcases h with ⟨ht, hm⟩
  split
  next hlt =>
    have hq : (move_total - maxd) / maxd = move_total / maxd - 1 := by
      field_simp
    rw [hq]
    have h0 : (0:ℚ) ≤ move_total / maxd - 1 := by
      have h1 : (1:ℚ) ≤ move_total / maxd := (one_le_div hm).mpr hlt.le
      linarith
    have h2 : ((Nat.ceil (move_total / maxd - 1) : ℚ)) < (move_total / maxd - 1) + 1 :=
      Nat.ceil_lt_add_one h0
    have h3 : ((Nat.ceil (move_total / maxd - 1) : ℚ)) < move_total / maxd := by linarith
    exact Nat.lt_ceil.mpr h3
  next hlt =>
    have hq : (move_total - move_total) / maxd = 0 := by
      rw [sub_self, zero_div]
    rw [hq]
    simp only [Nat.ceil_zero]
    exact Nat.ceil_pos.mpr (div_pos ht hm)

/-- `AFCExtruderStepper.move(distance, speed, accel, assist_active)` as an
event trace: `direction = 1 if distance > 0 else -1`,
`move_total = abs(distance)`. -/
def move (maxd distance : ℚ) (assist_active : Bool) : List MoveEvent :=
  moveLoop maxd (if 0 < distance then 1 else -1) assist_active |distance|

/-! ### Load-retry loop (`AFCExtruderStepper.prep_callback`, auto-load branch) -/

/-- Result of the auto-load retry loop: how many enable/`move(10,500,400)`
iterations were executed, whether the retry-exhaustion fault (error message
plus fault LED) was raised, and the lane status tag set on exit
(the source sets `self.status = ''` on both exits). -/
structure LoadRetryResult where
  moves : ℕ
  faulted : Bool
  status : String
deriving DecidableEq, Repr

/-- The retry loop of the auto-load branch of `prep_callback`:

`while self.load_state == False and self.prep_state == True and self.load != None:`
`x += 1; do_enable(True); move(10,500,400); pause(0.1); if x > 40: fault; break`

`loadS k` / `prepS k` give the latched sensor levels seen at the k-th
loop-condition check (the edge callbacks update them asynchronously),
`hasLoadPin` models `self.load != None`, `x` the retry counter and `moves`
the accumulated count of enable/move iterations already executed. -/
def loadRetryLoop (loadS prepS : ℕ → Bool) (hasLoadPin : Bool) (x k moves : ℕ) :
    LoadRetryResult :=
  if loadS k = false ∧ prepS k = true ∧ hasLoadPin = true then
    if 40 < x + 1 then { moves := moves + 1, faulted := true, status := "" }
    else loadRetryLoop loadS prepS hasLoadPin (x + 1) (k + 1) (moves + 1)
  else { moves := moves, faulted := false, status := "" }
termination_by 41 - x
decreasing_by omega

/-! ### Follow controller (`AFCExtruderStepper._wheel_follow_handler`) -/

/-- The per-lane state the follow handler reads and writes:
the Exclusion Flag `_wheel_follow_paused`, the level-trigger latch
`assist_activate`, and the two follow-mode config values. -/
structure FollowState where
  wheel_follow_paused : Bool
  assist_activate : Bool
  wheel_follow_pwm : ℚ
  wheel_follow_min_rpm : ℚ
deriving DecidableEq

/-- One tick of `_wheel_follow_handler(eventtime)`: returns the updated
state, the motor command issued this tick (if any), and the reschedule
time `eventtime + 0.1`.  `sample` is the wheel-rpm component the sensor
would report this tick (read only when not paused). -/
def wheelFollowHandler (st : FollowState) (sample : Option ℚ) (eventtime : ℚ) :
    FollowState × Option ℚ × ℚ :=
  if st.wheel_follow_paused then (st, none, eventtime + 1/10)
  else
    match sample with
    | some rpm =>
      if st.wheel_follow_min_rpm ≤ rpm then
        if st.assist_activate then (st, none, eventtime + 1/10)
        else ({ st with assist_activate := true },
              some (max 0 (min st.wheel_follow_pwm 1)), eventtime + 1/10)
      else
        if st.assist_activate then
          ({ st with assist_activate := false }, some 0, eventtime + 1/10)
        else (st, none, eventtime + 1/10)
    | none =>
      if st.assist_activate then
        ({ st with assist_activate := false }, some 0, eventtime + 1/10)
      else (st, none, eventtime + 1/10)

/-- `n` consecutive timer ticks of the follow handler, fed by the sample
stream; returns the final state, the concatenated list of motor commands
issued, and the final scheduled time. -/
def followTicks (stream : ℕ → Option ℚ) : ℕ → FollowState → ℚ →
    FollowState × List ℚ × ℚ
  | 0, st, t => (st, [], t)
  | n + 1, st, t =>
    let r := wheelFollowHandler st (stream n) t
    let rest := followTicks stream n r.1 r.2.2
    (rest.1, r.2.1.toList ++ rest.2.1, rest.2.2)

/-! ### Lane configuration and PWM mapping (`AFCExtruderStepper`) -/

/-- The `AFCExtruderStepper` config attributes used by the assist PWM
mapping, the weight bookkeeping and the tension rewind controller.
`afc_motor_rwd` records whether a reverse output channel is bound
(`self.afc_motor_rwd is not None`). -/
structure Lane where
  filament_diameter : ℝ
  filament_density : ℝ
  inner_diameter : ℝ
  empty_spool_weight : ℝ
  remaining_weight : ℝ
  max_motor_rpm : ℝ
  rwd_speed_multi : ℝ
  fwd_speed_multi : ℝ
  tension_baseline_min_rpm : ℝ
  tension_drop_fraction : ℝ
  afc_motor_rwd : Bool

/-- `AFCExtruderStepper.calculate_effective_diameter(weight_g, spool_width_mm)`:
weight → filament volume → package-corrected cross-section → outer diameter,
with the source's literal constants `0.785` and `3.14159` and `** 0.5`
modelled by `Real.sqrt`. -/
noncomputable def calculate_effective_diameter (lane : Lane) (weight_g spool_width_mm : ℝ) : ℝ :=
  let density_g_mm3 := lane.filament_density / 1000
  let filament_volume_mm3 := weight_g / density_g_mm3
  let package_corrected_volume_mm3 := filament_volume_mm3 / (785 / 1000)
  let filament_area_mm2 := package_corrected_volume_mm3 / spool_width_mm
  let spool_outer_diameter_mm2 :=
    4 * filament_area_mm2 / (314159 / 100000) + lane.inner_diameter ^ 2
  Real.sqrt spool_outer_diameter_mm2

/-- `AFCExtruderStepper.calculate_rpm(feed_rate)`: `0` once the remaining
weight is at or below the empty-spool weight, otherwise
`min(feed_rate*60 / (math.pi * effective_diameter), max_motor_rpm)`.
The source calls `calculate_effective_diameter` with its default spool
width of 60 mm. -/
noncomputable def calculate_rpm (lane : Lane) (feed_rate : ℝ) : ℝ :=
  if lane.remaining_weight ≤ lane.empty_spool_weight then 0
  else
    let effective_diameter := calculate_effective_diameter lane lane.remaining_weight 60
    let rpm := feed_rate * 60 / (Real.pi * effective_diameter)
    min rpm lane.max_motor_rpm

/-- `AFCExtruderStepper.calculate_pwm_value(feed_rate, rewind)`: scale the
rpm by the forward (`max_motor_rpm / (1 + 9*fwd_speed_multiplier)`) or
reverse (`max_motor_rpm / (15 + 15*rwd_speed_multiplier)`) divisor and
clamp to `[0, 1]`. -/
noncomputable def calculate_pwm_value (lane : Lane) (feed_rate : ℝ) (rewind : Bool) : ℝ :=
  let rpm := calculate_rpm lane feed_rate
  let pwm_value :=
    if rewind then rpm / (lane.max_motor_rpm / (15 + 15 * lane.rwd_speed_multi))
    else rpm / (lane.max_motor_rpm / (1 + 9 * lane.fwd_speed_multi))
  max 0 (min pwm_value 1)

/-- `AFCExtruderStepper.update_remaining_weight(distance_moved)`: subtract the
volume-to-mass conversion of the (signed) distance moved and clamp the result
from below at the empty-spool weight.  Returns the lane with the new
`remaining_weight`. -/
noncomputable def update_remaining_weight (lane : Lane) (distance_moved : ℝ) : Lane :=
  let filament_volume_mm3 := Real.pi * (lane.filament_diameter / 2) ^ 2 * distance_moved
  let filament_weight_change := filament_volume_mm3 * lane.filament_density / 1000
  let w := lane.remaining_weight - filament_weight_change
  { lane with remaining_weight := if w < lane.empty_spool_weight then lane.empty_spool_weight else w }

/-! ### Trapezoidal timing (`calc_move_time`, module level in AFC_stepper.py) -/

/-- `calc_move_time(dist, speed, accel)`: direction, acceleration time,
cruise time and cruise speed of one segment, exactly as in the source
(`not accel or not dist` is float truthiness, i.e. `accel = 0 ∨ dist = 0`). -/
noncomputable def calc_move_time (dist speed accel : ℝ) : ℝ × ℝ × ℝ × ℝ :=
  let axis_r : ℝ := if dist < 0 then -1 else 1
  let dist := if dist < 0 then -dist else dist
  if accel = 0 ∨ dist = 0 then (axis_r, 0, dist / speed, speed)
  else
    let max_cruise_v2 := dist * accel
    let speed := if max_cruise_v2 < speed ^ 2 then Real.sqrt max_cruise_v2 else speed
    let accel_t := speed / accel
    let accel_decel_d := accel_t * speed
    let cruise_t := (dist - accel_decel_d) / speed
    (axis_r, accel_t, cruise_t, speed)

/-! ### Tension rewind controller (`AFCExtruderStepper.rewind_until_tension`)

Time is measured in deciseconds from `start_time`; each
`reactor.pause(monotonic() + 0.1)` advances `elapsed` by one, the baseline
window `2.0` becomes `20` and `tension_max_time` becomes `tmax` deciseconds.
-/

/-- In-flight state of one `rewind_until_tension` call: elapsed deciseconds
since `start_time`, number of `get_rpm` calls made so far, the trace of
`self.assist(...)` commands issued, and the current `pwm_val`. -/
structure RewindState where
  elapsed : ℕ
  reads : ℕ
  cmds : List ℝ
  pwm : ℝ

/-- Baseline phase of `rewind_until_tension`:
`while (monotonic() - start_time) < 2.0`, poll the sensor; the first sample
with `wheel_rpm > tension_baseline_min_rpm` becomes the baseline and breaks
the loop; otherwise pause 0.1 s and retry.  Returns the baseline (if found)
and the state after the loop. -/
noncomputable def baselineLoop (sensor : ℕ → Option ℝ) (minRpm : ℝ) (s : RewindState) :
    Option ℝ × RewindState :=
  if s.elapsed < 20 then
    match sensor s.reads with
    | some rpm =>
      if minRpm < rpm then (some rpm, { s with reads := s.reads + 1 })
      else baselineLoop sensor minRpm { s with reads := s.reads + 1, elapsed := s.elapsed + 1 }
    | none => baselineLoop sensor minRpm { s with reads := s.reads + 1, elapsed := s.elapsed + 1 }
  else (none, s)
termination_by 20 - s.elapsed
decreasing_by all_goals omega

/-- The duty-nudging step of the regulation phase: when the reading is more
than 10 % below the target, lower `pwm_val` by 0.05 (clamped at `-1`) and
issue the new command; when more than 10 % above, raise it by 0.05 (clamped
at `0`) and issue the new command; otherwise leave the state unchanged. -/
noncomputable def regulationAdjust (target rpm : ℝ) (s1 : RewindState) : RewindState :=
  if rpm < target * (9 / 10) then
    { s1 with pwm := max (s1.pwm - 1 / 20) (-1),
              cmds := s1.cmds ++ [max (s1.pwm - 1 / 20) (-1)] }
  else if target * (11 / 10) < rpm then
    { s1 with pwm := min (s1.pwm + 1 / 20) 0,
              cmds := s1.cmds ++ [min (s1.pwm + 1 / 20) 0] }
  else s1

/-- Regulation phase of `rewind_until_tension`:
`while (monotonic() - start_time) < tension_max_time` (note: measured from
the same `start_time` as the baseline phase), poll the sensor; on a sample,
apply the `regulationAdjust` nudge, then break if the reading is below the
cutoff; otherwise pause 0.1 s (one decisecond: the adjusted state keeps
`elapsed = s.elapsed`, so the pause writes `s.elapsed + 1`). -/
noncomputable def regulationLoop (sensor : ℕ → Option ℝ) (tmax : ℕ) (cutoff target : ℝ)
    (s : RewindState) : RewindState :=
  if s.elapsed < tmax then
    match sensor s.reads with
    | some rpm =>
      if rpm < cutoff then regulationAdjust target rpm { s with reads := s.reads + 1 }
      else regulationLoop sensor tmax cutoff target
        { regulationAdjust target rpm { s with reads := s.reads + 1 } with
            elapsed := s.elapsed + 1 }
    | none => regulationLoop sensor tmax cutoff target
        { s with reads := s.reads + 1, elapsed := s.elapsed + 1 }
  else s
termination_by tmax - s.elapsed
decreasing_by all_goals omega

/-- Final outcome of a `rewind_until_tension` call: the full ordered trace
of `self.assist(...)` commands, the elapsed deciseconds at return, and
whether a baseline was found. -/
structure RewindResult where
  cmds : List ℝ
  elapsed : ℕ
  baselineFound : Bool

/-- `AFCExtruderStepper.rewind_until_tension(speed)`.  `hasSensor` models
`self.wheel_sensor is not None` and `lane.afc_motor_rwd` the reverse motor
binding; without both the source returns immediately having issued no motor
command.  Otherwise: command the initial reverse duty
`-(min(calculate_pwm_value(speed, rewind=True), 1.0))`, run the baseline
phase, abort with `assist(0)` if no baseline was found, else run the
regulation phase with `cutoff = baseline * tension_drop_fraction` and
`target = baseline`, and finally `assist(0)` unconditionally. -/
noncomputable def rewind_until_tension (lane : Lane) (hasSensor : Bool)
    (sensor : ℕ → Option ℝ) (speed : ℝ) (tmax : ℕ) : RewindResult :=
  if hasSensor = false ∨ lane.afc_motor_rwd = false then
    { cmds := [], elapsed := 0, baselineFound := false }
  else
    let pwm0 := -(if 1 < calculate_pwm_value lane speed true then 1
                  else calculate_pwm_value lane speed true)
    let s0 : RewindState := { elapsed := 0, reads := 0, cmds := [pwm0], pwm := pwm0 }
    match baselineLoop sensor lane.tension_baseline_min_rpm s0 with
    | (none, s1) => { cmds := s1.cmds ++ [0], elapsed := s1.elapsed, baselineFound := false }
    | (some baseline_rpm, s1) =>
      let cutoff := baseline_rpm * lane.tension_drop_fraction
      let s2 := regulationLoop sensor tmax cutoff baseline_rpm s1
      { cmds := s2.cmds ++ [0], elapsed := s2.elapsed, baselineFound := true }

/-! ### Assist-move guard (`AFCExtruderStepper.assist_move`, a

`@contextmanager`).  The guarded body is abstracted by whether it raises an
exception (`bodyRaises`).  Python generator semantics: an exception thrown
into the generator at a `yield` outside any `try` unwinds the generator at
once, skipping all code after that `yield`. -/

/-- Outcome of entering and leaving one `assist_move` guard: the final value
of the Exclusion Flag `_wheel_follow_paused` (it is `False` before entry),
the trace of motor commands issued by the guard machinery itself (entry
command, rewind commands, release command), and whether an exception
propagated out. -/
structure AssistMoveOutcome where
  wheel_follow_paused : Bool
  cmds : List ℝ
  raised : Bool

/-- `AFCExtruderStepper.assist_move(speed, rewind, assist_active)` wrapped
around a body that either completes or raises:

* `assist_active` and `rewind` with a wheel sensor: set the flag, run
  `rewind_until_tension`, `yield` (outside the `try`); on normal body
  completion clear the flag and return; on an exception at the `yield` the
  generator unwinds immediately, so the flag stays set and nothing else runs.
* `assist_active` otherwise: set the flag, command the computed open-loop
  duty, `yield` inside `try`; the `finally` issues `assist(0)` and clears
  the flag on both normal exit and unwind.
* not `assist_active`: the `finally` only clears the (already clear) flag. -/
noncomputable def assist_move (lane : Lane) (hasSensor : Bool) (sensor : ℕ → Option ℝ)
    (tmax : ℕ) (speed : ℝ) (rewind assist_active bodyRaises : Bool) : AssistMoveOutcome :=
  if assist_active then
    if rewind && hasSensor then
      let r := rewind_until_tension lane hasSensor sensor speed tmax
      if bodyRaises then
        { wheel_follow_paused := true, cmds := r.cmds, raised := true }
      else
        { wheel_follow_paused := false, cmds := r.cmds, raised := false }
    else
      let value := if rewind then calculate_pwm_value lane speed true * (-1)
                   else calculate_pwm_value lane speed false
      let value := if 1 < value then 1 else value
      { wheel_follow_paused := false, cmds := [value, 0], raised := bodyRaises }
  else
    { wheel_follow_paused := false, cmds := [], raised := bodyRaises }

/-- A concrete lane configuration used to instantiate hypotheses: default-ish
config values (`spool_weight 1000`, `empty_spool_weight 190`,
`assist_max_motor_rpm 500`, multipliers `0.5`, tension defaults) with a
2 mm filament diameter and unit density for readable arithmetic, and a
reverse motor channel bound. -/
noncomputable def lane0 : Lane :=
  { filament_diameter := 2
    filament_density := 1
    inner_diameter := 100
    empty_spool_weight := 190
    remaining_weight := 1000
    max_motor_rpm := 500
    rwd_speed_multi := 1/2
    fwd_speed_multi := 1/2
    tension_baseline_min_rpm := 5
    tension_drop_fraction := 3/4
    afc_motor_rwd := true }

/-! ## Theorems -/

/-! ### C10: the wheel sensor reports the same value for wheel and motor RPM -/

/-- C10: every `get_rpm` call returns a pair whose two components are
identical: `(none, none)` exactly when the elapsed time since the previous
sample is `≤ 0`, and otherwise `(r, r)` with
`r = (pulses / pulses_per_rev) / dt * 60` — the reported motor RPM is never
an independent measurement. -/
theorem get_rpm_pair_identical (s : WheelSensor) (now : ℚ) :
    (get_rpm s now).1.1 = (get_rpm s now).1.2 ∧
    (get_rpm s now).1.1 =
      (if now - s.last_time ≤ 0 then none
       else some (s.pulse_count / s.pulses_per_rev / (now - s.last_time) * 60)) := by
  simp only [get_rpm]
  split_ifs with h <;> simp

/-! ### C3: the follow handler is inert while the Exclusion Flag is set -/

/-- C3: while `_wheel_follow_paused` is set, any number of consecutive
follow-handler ticks issues no motor command at all, leaves the state
untouched, and only reschedules (each tick returns `eventtime + 0.1`). -/
theorem followTicks_paused_inert (stream : ℕ → Option ℚ) (n : ℕ) (st : FollowState)
    (t : ℚ) (h : st.wheel_follow_paused = true) :
    followTicks stream n st t = (st, [], t + n * (1/10)) := by
  induction n generalizing t with
  | zero => simp [followTicks]
  | succ n ih =>
    have hh : wheelFollowHandler st (stream n) t = (st, none, t + 1/10) := by
      simp [wheelFollowHandler, h]
    simp only [followTicks, hh, ih (t + 1/10)]
    refine Prod.ext rfl (Prod.ext (by simp) ?_)
    push_cast
    ring

/-- Witness for C3 at a concrete paused state, three ticks. -/
theorem followTicks_paused_inert_witness :
    (⟨true, false, 3/10, 1⟩ : FollowState).wheel_follow_paused = true ∧
    followTicks (fun _ => none) 3 ⟨true, false, 3/10, 1⟩ 0 =
      (⟨true, false, 3/10, 1⟩, [], (0 : ℚ) + ((3 : ℕ) : ℚ) * (1/10)) :=
  ⟨rfl, followTicks_paused_inert (fun _ => none) 3 ⟨true, false, 3/10, 1⟩ 0 rfl⟩

/-! ### Segmentation lemmas shared by C4 and C5 -/

/-- One unfolding of the segmentation loop when it runs an iteration. -/
theorem segmentDistances_pos_unfold (maxd t : ℚ) (ht : 0 < t) (hm : 0 < maxd) :
    segmentDistances maxd t =
      (if maxd < t then maxd else t) ::
        segmentDistances maxd (t - (if maxd < t then maxd else t)) := by
  conv_lhs => rw [segmentDistances]
  rw [dif_pos ⟨ht, hm⟩]

/-- The segmentation loop body does not run when the remaining distance is
not positive (or the segment cap is not positive). -/
theorem segmentDistances_neg_unfold (maxd t : ℚ) (h : ¬(0 < t ∧ 0 < maxd)) :
    segmentDistances maxd t = [] := by
  conv_lhs => rw [segmentDistances]
  rw [dif_neg h]

/-- The unsigned segments sum back to the requested total. -/
theorem segmentDistances_sum (maxd t : ℚ) (hm : 0 < maxd) (ht : 0 ≤ t) :
    (segmentDistances maxd t).sum = t := by
  by_cases h0 : 0 < t
  · rw [segmentDistances_pos_unfold maxd t h0 hm]
    by_cases hlt : maxd < t
    · rw [if_pos hlt]
      have ih := segmentDistances_sum maxd (t - maxd) hm (by linarith)
      rw [List.sum_cons, ih]
      ring
    · rw [if_neg hlt]
      have ih := segmentDistances_sum maxd (t - t) hm (by linarith)
      rw [List.sum_cons, ih]
      ring
  · have ht0 : t = 0 := le_antisymm (not_lt.mp h0) ht
    rw [segmentDistances_neg_unfold maxd t (by simp [ht0])]
    simp [ht0]
termination_by Nat.ceil (t / maxd)
decreasing_by
  · have hq : (t - maxd) / maxd = t / maxd - 1 := by field_simp
    rw [hq]
    have h0' : (0:ℚ) ≤ t / maxd - 1 := by
      have h1 : (1:ℚ) ≤ t / maxd := (one_le_div hm).mpr hlt.le
      linarith
    have h2 : ((Nat.ceil (t / maxd - 1) : ℚ)) < (t / maxd - 1) + 1 :=
      Nat.ceil_lt_add_one h0'
    have h3 : ((Nat.ceil (t / maxd - 1) : ℚ)) < t / maxd := by linarith
    exact Nat.lt_ceil.mpr h3
  · have hq : (t - t) / maxd = 0 := by rw [sub_self, zero_div]
    rw [hq]
    simp only [Nat.ceil_zero]
    exact Nat.ceil_pos.mpr (div_pos h0 hm)

/-- Every unsigned segment is positive and bounded by the cap. -/
theorem segmentDistances_mem (maxd t : ℚ) (hm : 0 < maxd) :
    ∀ s ∈ segmentDistances maxd t, 0 < s ∧ s ≤ maxd := by
  by_cases h0 : 0 < t
  · rw [segmentDistances_pos_unfold maxd t h0 hm]
    by_cases hlt : maxd < t
    · rw [if_pos hlt]
      intro s hs
      rcases List.mem_cons.mp hs with rfl | hs
      · exact ⟨hm, le_rfl⟩
      · exact segmentDistances_mem maxd (t - maxd) hm s hs
    · rw [if_neg hlt]
      intro s hs
      rcases List.mem_cons.mp hs with rfl | hs
      · exact ⟨h0, not_lt.mp hlt⟩
      · exact segmentDistances_mem maxd (t - t) hm s hs
  · rw [segmentDistances_neg_unfold maxd t (fun hc => h0 hc.1)]
    intro s hs
    exact absurd hs (List.not_mem_nil s)
termination_by Nat.ceil (t / maxd)
decreasing_by
  · have hq : (t - maxd) / maxd = t / maxd - 1 := by field_simp
    rw [hq]
    have h0' : (0:ℚ) ≤ t / maxd - 1 := by
      have h1 : (1:ℚ) ≤ t / maxd := (one_le_div hm).mpr hlt.le
      linarith
    have h2 : ((Nat.ceil (t / maxd - 1) : ℚ)) < (t / maxd - 1) + 1 :=
      Nat.ceil_lt_add_one h0'
    have h3 : ((Nat.ceil (t / maxd - 1) : ℚ)) < t / maxd := by linarith
    exact Nat.lt_ceil.mpr h3
  · have hq : (t - t) / maxd = 0 := by rw [sub_self, zero_div]
    rw [hq]
    simp only [Nat.ceil_zero]
    exact Nat.ceil_pos.mpr (div_pos h0 hm)

/-- The concrete shape of the segmentation of a `3.5 * max_move_dis`
request: three full segments and a half segment. -/
theorem segmentDistances_three_and_half (maxd : ℚ) (hm : 0 < maxd) :
    segmentDistances maxd (maxd * (7/2)) = [maxd, maxd, maxd, maxd / 2] := by
  have e1 : maxd * (7/2) - maxd = maxd * (5/2) := by ring
  have e2 : maxd * (5/2) - maxd = maxd * (3/2) := by ring
  have e3 : maxd * (3/2) - maxd = maxd / 2 := by ring
  rw [segmentDistances_pos_unfold maxd _ (by nlinarith) hm, if_pos (by nlinarith), e1]
  rw [segmentDistances_pos_unfold maxd _ (by nlinarith) hm, if_pos (by nlinarith), e2]
  rw [segmentDistances_pos_unfold maxd _ (by nlinarith) hm, if_pos (by nlinarith), e3]
  rw [segmentDistances_pos_unfold maxd _ (by nlinarith) hm,
      if_neg (by intro hc; nlinarith), sub_self]
  rw [segmentDistances_neg_unfold maxd 0 (by intro hc; exact lt_irrefl 0 hc.1)]

/-! ### C5: segmentation arithmetic -/

/-- C5: for a nonzero request and positive `max_move_dis`, every signed
segment has magnitude at most `max_move_dis` and carries the sign of the
request, the signed segments sum exactly to the request, and a request of
`max_move_dis * 3.5` yields exactly the four segments
`[maxd, maxd, maxd, maxd/2]`, the last strictly shorter than the cap. -/
theorem move_segmentation_correct (maxd d : ℚ) (hm : 0 < maxd) (hd : d ≠ 0) :
    (∀ s ∈ signedSegments maxd d, |s| ≤ maxd ∧ (0 < d → 0 < s) ∧ (d < 0 → s < 0)) ∧
    (signedSegments maxd d).sum = d ∧
    signedSegments maxd (maxd * (7/2)) = [maxd, maxd, maxd, maxd / 2] ∧
    maxd / 2 < maxd := by
  refine ⟨?_, ?_, ?_, by linarith⟩
  · intro s hs
    rcases List.mem_map.mp hs with ⟨u, hu, rfl⟩
    have hu' := segmentDistances_mem maxd |d| hm u hu
    by_cases hdp : 0 < d
    · rw [if_pos hdp, mul_one]
      exact ⟨by rw [abs_of_pos hu'.1]; exact hu'.2, fun _ => hu'.1, fun hneg => absurd hdp (not_lt.mpr hneg.le)⟩
    · rw [if_neg hdp]
      refine ⟨?_, fun hc => absurd hc hdp, fun _ => by nlinarith [hu'.1]⟩
      have : |u * (-1)| = u := by rw [abs_mul]; simp [abs_of_pos hu'.1]
      rw [this]
      exact hu'.2
  · unfold signedSegments
    by_cases hdp : 0 < d
    · rw [if_pos hdp]
      simp only [mul_one, List.map_id']
      rw [segmentDistances_sum maxd |d| hm (abs_nonneg d)]
      exact abs_of_pos hdp
    · rw [if_neg hdp]
      have hsum : ∀ l : List ℚ, (l.map (· * (-1 : ℚ))).sum = -l.sum := by
        intro l
        induction l with
        | nil => simp
        | cons x xs ih =>
          simp only [List.map_cons, List.sum_cons, ih]
          ring
      rw [hsum, segmentDistances_sum maxd |d| hm (abs_nonneg d)]
      rw [abs_of_neg (lt_of_le_of_ne (not_lt.mp hdp) hd)]
      ring
  · unfold signedSegments
    rw [if_pos (by nlinarith), abs_of_pos (by nlinarith)]
    rw [segmentDistances_three_and_half maxd hm]
    simp

/-- Witness for C5 at `max_move_dis = 2`, request `-7`. -/
theorem move_segmentation_correct_witness :
    (0 : ℚ) < 2 ∧ (-7 : ℚ) ≠ 0 ∧
    ((∀ s ∈ signedSegments 2 (-7), |s| ≤ 2 ∧ ((0:ℚ) < -7 → 0 < s) ∧ ((-7:ℚ) < 0 → s < 0)) ∧
     (signedSegments 2 (-7)).sum = -7 ∧
     signedSegments 2 (2 * (7/2)) = [2, 2, 2, 2 / 2] ∧
     (2 : ℚ) / 2 < 2) :=
  ⟨by norm_num, by norm_num, move_segmentation_correct 2 (-7) (by norm_num) (by norm_num)⟩

/-! ### C4: assist-session scoping of multi-segment moves -/

/-- One unfolding of the `move` loop when it runs an iteration. -/
theorem moveLoop_pos_unfold (maxd direction : ℚ) (aa : Bool) (t : ℚ)
    (ht : 0 < t) (hm : 0 < maxd) :
    moveLoop maxd direction aa t =
      moveEvents ((if maxd < t then maxd else t) * direction) aa ++
        moveLoop maxd direction aa (t - (if maxd < t then maxd else t)) := by
  conv_lhs => rw [moveLoop]
  rw [dif_pos ⟨ht, hm⟩]

/-- The `move` loop body does not run when the remaining distance is not
positive (or the segment cap is not positive). -/
theorem moveLoop_neg_unfold (maxd direction : ℚ) (aa : Bool) (t : ℚ)
    (h : ¬(0 < t ∧ 0 < maxd)) :
    moveLoop maxd direction aa t = [] := by
  conv_lhs => rw [moveLoop]
  rw [dif_neg h]

/-- The `move` event trace is the concatenation of the per-segment `_move`
traces, one for each segment of the segmentation loop. -/
theorem moveLoop_eq_foldr (maxd direction : ℚ) (aa : Bool) (t : ℚ) :
    moveLoop maxd direction aa t =
      (segmentDistances maxd t).foldr
        (fun s acc => moveEvents (s * direction) aa ++ acc) [] := by
  by_cases h : 0 < t ∧ 0 < maxd
  · rw [moveLoop_pos_unfold maxd direction aa t h.1 h.2,
        segmentDistances_pos_unfold maxd t h.1 h.2, List.foldr_cons]
    rw [moveLoop_eq_foldr maxd direction aa (t - (if maxd < t then maxd else t))]
  · rw [moveLoop_neg_unfold maxd direction aa t h, segmentDistances_neg_unfold maxd t h]
    rfl
termination_by Nat.ceil (t / maxd)
decreasing_by
  rcases h with ⟨ht, hm⟩
  split
  next hlt =>
    have hq : (t - maxd) / maxd = t / maxd - 1 := by field_simp
    rw [hq]
    have h0' : (0:ℚ) ≤ t / maxd - 1 := by
      have h1 : (1:ℚ) ≤ t / maxd := (one_le_div hm).mpr hlt.le
      linarith
    have h2 : ((Nat.ceil (t / maxd - 1) : ℚ)) < (t / maxd - 1) + 1 :=
      Nat.ceil_lt_add_one h0'
    have h3 : ((Nat.ceil (t / maxd - 1) : ℚ)) < t / maxd := by linarith
    exact Nat.lt_ceil.mpr h3
  next hlt =>
    have hq : (t - t) / maxd = 0 := by rw [sub_self, zero_div]
    rw [hq]
    simp only [Nat.ceil_zero]
    exact Nat.ceil_pos.mpr (div_pos ht hm)

/-- C4 counterexample: a two-segment assisted move (`max_move_dis = 10`,
request `20`) opens two assist sessions, not one spanning the whole move. -/
theorem move_not_single_session :
    (move 10 20 true).count MoveEvent.sessionBegin = 2 := by
  have h1 : move 10 20 true = moveLoop 10 1 true 20 := by
    unfold move
    norm_num
  have h2 : moveLoop 10 1 true 20 =
      moveEvents (10 * 1) true ++ moveLoop 10 1 true 10 := by
    rw [moveLoop_pos_unfold 10 1 true 20 (by norm_num) (by norm_num)]
    norm_num
  have h3 : moveLoop 10 1 true 10 =
      moveEvents (10 * 1) true ++ moveLoop 10 1 true 0 := by
    rw [moveLoop_pos_unfold 10 1 true 10 (by norm_num) (by norm_num)]
    norm_num
  have h4 : moveLoop 10 1 true 0 = [] :=
    moveLoop_neg_unfold 10 1 true 0 (by norm_num)
  rw [h1, h2, h3, h4]
  simp [moveEvents, List.count_cons, List.count_append]

/-- C4 amended: with `assist_active`, an assist session is opened and closed
once per segment — the trace of a multi-segment move is the concatenation,
over the signed segments, of begin/segment/end triples, not a single
session spanning the whole move. -/
theorem move_sessions_per_segment (maxd d : ℚ) :
    move maxd d true =
      (signedSegments maxd d).foldr
        (fun s acc =>
          MoveEvent.sessionBegin :: MoveEvent.segment s :: MoveEvent.sessionEnd :: acc)
        [] := by
  unfold move signedSegments
  rw [moveLoop_eq_foldr]
  rw [List.foldr_map]
  simp [moveEvents]

/-! ### C9: auto-load retry loop bound and fault reporting -/

/-- Upper bound on the enable/move iterations the retry loop can still
perform when entered with counter `x` (for `x ≤ 40`). -/
theorem loadRetryLoop_moves_le (loadS prepS : ℕ → Bool) (pin : Bool) (x k m : ℕ)
    (hx : x ≤ 40) :
    (loadRetryLoop loadS prepS pin x k m).moves ≤ m + (41 - x) := by
  conv_lhs => rw [loadRetryLoop]
  by_cases hc : (loadS k = false ∧ prepS k = true ∧ pin = true)
  · rw [if_pos hc]
    by_cases h40 : 40 < x + 1
    · rw [if_pos h40]
      show m + 1 ≤ m + (41 - x)
      omega
    · rw [if_neg h40]
      have ih := loadRetryLoop_moves_le loadS prepS pin (x + 1) (k + 1) (m + 1) (by omega)
      exact le_trans ih (by omega)
  · rw [if_neg hc]
    show m ≤ m + (41 - x)
    omega
termination_by 41 - x
decreasing_by omega

/-- With a load sensor that never triggers (and prep held), the retry loop
entered with counter `x ≤ 40` executes exactly `41 - x` further iterations,
raises the retry-exhaustion fault, and sets the status to the empty tag. -/
theorem loadRetryLoop_never (loadS prepS : ℕ → Bool)
    (hl : ∀ j, loadS j = false) (hp : ∀ j, prepS j = true) (x k m : ℕ) (hx : x ≤ 40) :
    loadRetryLoop loadS prepS true x k m =
      { moves := m + (41 - x), faulted := true, status := "" } := by
  conv_lhs => rw [loadRetryLoop]
  rw [if_pos ⟨hl k, hp k, rfl⟩]
  by_cases h40 : 40 < x + 1
  · rw [if_pos h40]
    have hx40 : x = 40 := by omega
    subst hx40
    rfl
  · rw [if_neg h40]
    rw [loadRetryLoop_never loadS prepS hl hp (x + 1) (k + 1) (m + 1) (by omega)]
    simp only [LoadRetryResult.mk.injEq, and_true, true_and]
    omega
termination_by 41 - x
decreasing_by omega

/-- C9 counterexample: with a load sensor that never triggers, the retry
loop performs 41 enable/move-10mm iterations before aborting — more than
the 40 the claim states (`x > 40` is only checked after the increment and
the move of that iteration). -/
theorem prep_load_retry_overruns :
    40 < (loadRetryLoop (fun _ => false) (fun _ => true) true 0 0 0).moves := by
  rw [loadRetryLoop_never (fun _ => false) (fun _ => true)
        (fun _ => rfl) (fun _ => rfl) 0 0 0 (by omega)]
  show 40 < 0 + (41 - 0)
  omega

/-- C9 amended: the retry loop performs at most 41 iterations of
enable-stepper, move 10mm and 0.1s pause/re-check; if the load sensor has
not triggered it aborts after exactly 41 iterations with the fault report
(error message and fault LED, `faulted = true`), and the lane status is set
to the empty tag `''` (not a distinct fault value). -/
theorem prep_load_retry_amended (loadS prepS : ℕ → Bool)
    (hl : ∀ j, loadS j = false) (hp : ∀ j, prepS j = true) :
    (∀ lS pS p2 x k m, x ≤ 40 → (loadRetryLoop lS pS p2 x k m).moves ≤ m + (41 - x)) ∧
    loadRetryLoop loadS prepS true 0 0 0 =
      { moves := 41, faulted := true, status := "" } := by
  constructor
  · intro lS pS p2 x k m hx
    exact loadRetryLoop_moves_le lS pS p2 x k m hx
  · rw [loadRetryLoop_never loadS prepS hl hp 0 0 0 (by omega)]

/-- Witness for the amended C9 with never-triggering load and held prep. -/
theorem prep_load_retry_amended_witness :
    (∀ j : ℕ, (fun _ : ℕ => false) j = false) ∧
    (∀ j : ℕ, (fun _ : ℕ => true) j = true) ∧
    ((∀ lS pS p2 x k m, x ≤ 40 → (loadRetryLoop lS pS p2 x k m).moves ≤ m + (41 - x)) ∧
     loadRetryLoop (fun _ : ℕ => false) (fun _ : ℕ => true) true 0 0 0 =
       { moves := 41, faulted := true, status := "" }) :=
  ⟨fun _ => rfl, fun _ => rfl,
   prep_load_retry_amended (fun _ => false) (fun _ => true) (fun _ => rfl) (fun _ => rfl)⟩

/-! ### C7: PWM mapping properties -/

/-- Division by a nonnegative constant is monotone (Lean semantics give
`x / 0 = 0`, which keeps the degenerate case monotone as well). -/
theorem div_le_div_of_le_nonneg {a b c : ℝ} (h : a ≤ b) (hc : 0 ≤ c) :
    a / c ≤ b / c := by
  rcases hc.eq_or_lt with hc0 | hc0
  · rw [← hc0, div_zero, div_zero]
  · exact (div_le_div_iff_of_pos_right hc0).mpr h

/-- The effective spool diameter is a square root, hence nonnegative. -/
theorem calculate_effective_diameter_nonneg (lane : Lane) (w sw : ℝ) :
    0 ≤ calculate_effective_diameter lane w sw :=
  Real.sqrt_nonneg _

/-- Clamping to `[0, 1]` preserves order. -/
theorem clamp01_mono {a b : ℝ} (h : a ≤ b) : max 0 (min a 1) ≤ max 0 (min b 1) :=
  max_le_max le_rfl (min_le_min h le_rfl)

/-- `calculate_rpm` is monotone in the feed rate for a fixed lane. -/
theorem calculate_rpm_mono (lane : Lane) {f1 f2 : ℝ} (h : f1 ≤ f2) :
    calculate_rpm lane f1 ≤ calculate_rpm lane f2 := by
  simp only [calculate_rpm]
  split_ifs with hw
  · exact le_rfl
  · refine min_le_min ?_ le_rfl
    refine div_le_div_of_le_nonneg ?_ ?_
    · exact mul_le_mul_of_nonneg_right h (by norm_num)
    · exact mul_nonneg Real.pi_pos.le
        (calculate_effective_diameter_nonneg lane lane.remaining_weight 60)

/-- C7: for a fixed remaining weight and either mode, `calculate_pwm_value`
is monotone non-decreasing in the feed rate (for nonnegative
`max_motor_rpm` and speed multipliers), always lies in `[0, 1]`, and is `0`
whenever the remaining weight is at or below the empty-spool weight. -/
theorem calculate_pwm_value_props (lane : Lane) (rewind : Bool) (f1 f2 : ℝ)
    (hM : 0 ≤ lane.max_motor_rpm) (hfwd : 0 ≤ lane.fwd_speed_multi)
    (hrwd : 0 ≤ lane.rwd_speed_multi) (h12 : f1 ≤ f2) :
    calculate_pwm_value lane f1 rewind ≤ calculate_pwm_value lane f2 rewind ∧
    (0 ≤ calculate_pwm_value lane f1 rewind ∧ calculate_pwm_value lane f1 rewind ≤ 1) ∧
    (lane.remaining_weight ≤ lane.empty_spool_weight →
      calculate_pwm_value lane f1 rewind = 0) := by
  refine ⟨?_, ⟨?_, ?_⟩, ?_⟩
  · have hrpm := calculate_rpm_mono lane h12
    cases rewind
    · simp only [calculate_pwm_value, Bool.false_eq_true, if_false]
      exact clamp01_mono (div_le_div_of_le_nonneg hrpm (div_nonneg hM (by linarith)))
    · simp only [calculate_pwm_value, if_true]
      exact clamp01_mono (div_le_div_of_le_nonneg hrpm (div_nonneg hM (by linarith)))
  · exact le_max_left 0 _
  · simp only [calculate_pwm_value]
    exact max_le (by norm_num) (min_le_right _ 1)
  · intro hw
    have h0 : calculate_rpm lane f1 = 0 := by
      simp only [calculate_rpm]
      rw [if_pos hw]
    simp only [calculate_pwm_value, h0, zero_div]
    cases rewind <;> simp

/-- Witness for C7 at the concrete lane and feed rates `1 ≤ 2`. -/
theorem calculate_pwm_value_props_witness :
    (0 : ℝ) ≤ lane0.max_motor_rpm ∧ (0 : ℝ) ≤ lane0.fwd_speed_multi ∧
    (0 : ℝ) ≤ lane0.rwd_speed_multi ∧ (1 : ℝ) ≤ 2 ∧
    (calculate_pwm_value lane0 1 false ≤ calculate_pwm_value lane0 2 false ∧
     (0 ≤ calculate_pwm_value lane0 1 false ∧ calculate_pwm_value lane0 1 false ≤ 1) ∧
     (lane0.remaining_weight ≤ lane0.empty_spool_weight →
       calculate_pwm_value lane0 1 false = 0)) :=
  ⟨by norm_num [lane0], by norm_num [lane0], by norm_num [lane0], by norm_num,
   calculate_pwm_value_props lane0 false 1 2 (by norm_num [lane0]) (by norm_num [lane0])
     (by norm_num [lane0]) (by norm_num)⟩

/-! ### C8: remaining-weight update -/

/-- C8 counterexample: the source subtracts the conversion of the signed
distance, so a negative (rewind) segment increases the remaining weight —
refuting the claim that the weight is decreased by the magnitude of the
segment distance and never increases from a move. -/
theorem update_remaining_weight_increases_cex :
    lane0.remaining_weight < (update_remaining_weight lane0 (-1000)).remaining_weight := by
  have hpi := Real.pi_pos
  simp only [update_remaining_weight, lane0]
  norm_num
  split_ifs with h
  · nlinarith
  · nlinarith

/-- C8 amended: each assisted segment updates the remaining weight by the
signed volume-to-mass conversion — it is decreased by
`π*(filament_diameter/2)^2 * d * density / 1000` for the signed segment
distance `d` (so a negative segment increases the weight) — and the result
is floored at the empty-spool weight. -/
theorem update_remaining_weight_amended (lane : Lane) (d : ℝ) :
    (update_remaining_weight lane d).remaining_weight =
      max lane.empty_spool_weight
        (lane.remaining_weight -
          Real.pi * (lane.filament_diameter / 2) ^ 2 * d * lane.filament_density / 1000) ∧
    lane.empty_spool_weight ≤ (update_remaining_weight lane d).remaining_weight := by
  constructor
  · simp only [update_remaining_weight]
    split_ifs with h
    · exact (max_eq_left h.le).symm
    · exact (max_eq_right (not_lt.mp h)).symm
  · simp only [update_remaining_weight]
    split_ifs with h
    · exact le_rfl
    · exact not_lt.mp h

/-! ### C6: trapezoidal segment timing -/

/-- C6 counterexample: at `d = 0` the source returns direction `1`
(`axis_r` is initialised to `1` and only flipped for negative distances),
while the sign of `0` is `0` — so "direction = sign(d)" fails at zero. -/
theorem calc_move_time_sign_zero_cex :
    (calc_move_time 0 1 1).1 = 1 ∧ Real.sign 0 = 0 := by
  constructor
  · simp [calc_move_time]
  · exact Real.sign_zero

/-- C6 amended: for positive speed and nonnegative acceleration,
`calc_move_time` returns direction `1` for `d ≥ 0` and `-1` for `d < 0`
(sign of `d`, except `1` at `d = 0`); for `a = 0` or `d = 0` it returns
accel time `0`, cruise time `|d|/v` and cruise speed `v`; otherwise it
returns peak velocity `v' = min v (sqrt (|d|*a))`, accel time `v'/a` and
cruise time `(|d| - (v'/a)*v') / v'`. -/
theorem calc_move_time_amended (d v a : ℝ) (hv : 0 < v) (ha : 0 ≤ a) :
    calc_move_time d v a =
      (if d < 0 then -1 else 1,
       if a = 0 ∨ d = 0 then 0 else min v (Real.sqrt (|d| * a)) / a,
       if a = 0 ∨ d = 0 then |d| / v
       else (|d| - min v (Real.sqrt (|d| * a)) / a * min v (Real.sqrt (|d| * a))) /
         min v (Real.sqrt (|d| * a)),
       if a = 0 ∨ d = 0 then v else min v (Real.sqrt (|d| * a))) := by
  have habs : (if d < 0 then -d else d) = |d| := by
    rcases lt_or_le d 0 with hneg | hpos
    · rw [if_pos hneg, abs_of_neg hneg]
    · rw [if_neg (not_lt.mpr hpos), abs_of_nonneg hpos]
  simp only [calc_move_time, habs, abs_eq_zero]
  by_cases hc : a = 0 ∨ d = 0
  · rw [if_pos hc, if_pos hc, if_pos hc, if_pos hc]
  · rw [if_neg hc, if_neg hc, if_neg hc, if_neg hc]
    push_neg at hc
    have ha0 : 0 < a := lt_of_le_of_ne ha (Ne.symm hc.1)
    have hda : 0 ≤ |d| * a := mul_nonneg (abs_nonneg d) ha
    have hspeed : (if |d| * a < v ^ 2 then Real.sqrt (|d| * a) else v) =
        min v (Real.sqrt (|d| * a)) := by
      by_cases hlt : |d| * a < v ^ 2
      · rw [if_pos hlt]
        have hsq : Real.sqrt (|d| * a) < v := (Real.sqrt_lt' hv).mpr hlt
        exact (min_eq_right hsq.le).symm
      · rw [if_neg hlt]
        have hge : v ^ 2 ≤ |d| * a := not_lt.mp hlt
        have hsq : v ≤ Real.sqrt (|d| * a) := by
          have h1 : Real.sqrt (v ^ 2) ≤ Real.sqrt (|d| * a) := Real.sqrt_le_sqrt hge
          rwa [Real.sqrt_sq hv.le] at h1
        exact (min_eq_left hsq).symm
    rw [hspeed]

/-- Witness for the amended C6 at `d = -4`, `v = 1`, `a = 1`. -/
theorem calc_move_time_amended_witness :
    (0 : ℝ) < 1 ∧ (0 : ℝ) ≤ 1 ∧
    calc_move_time (-4) 1 1 =
      (if (-4 : ℝ) < 0 then -1 else 1,
       if (1 : ℝ) = 0 ∨ (-4 : ℝ) = 0 then 0
         else min 1 (Real.sqrt (|(-4 : ℝ)| * 1)) / 1,
       if (1 : ℝ) = 0 ∨ (-4 : ℝ) = 0 then |(-4 : ℝ)| / 1
       else (|(-4 : ℝ)| - min 1 (Real.sqrt (|(-4 : ℝ)| * 1)) / 1 *
           min 1 (Real.sqrt (|(-4 : ℝ)| * 1))) / min 1 (Real.sqrt (|(-4 : ℝ)| * 1)),
       if (1 : ℝ) = 0 ∨ (-4 : ℝ) = 0 then 1 else min 1 (Real.sqrt (|(-4 : ℝ)| * 1))) :=
  ⟨by norm_num, by norm_num, calc_move_time_amended (-4) 1 1 (by norm_num) (by norm_num)⟩

/-! ### C1: tension rewind terminates in bounded time with the motor stopped -/

/-- The baseline phase never advances the clock past the 2-second window. -/
theorem baselineLoop_elapsed_le (sensor : ℕ → Option ℝ) (m : ℝ) (s : RewindState) :
    (baselineLoop sensor m s).2.elapsed ≤ max s.elapsed 20 := by
  by_cases h : s.elapsed < 20
  · conv_lhs => rw [baselineLoop]
    rw [if_pos h]
    split
    next rpm hr =>
      split
      next hlt => exact le_max_left _ _
      next hlt =>
        refine le_trans (baselineLoop_elapsed_le sensor m _) ?_
        show max (s.elapsed + 1) 20 ≤ max s.elapsed 20
        omega
    next hr =>
      refine le_trans (baselineLoop_elapsed_le sensor m _) ?_
      show max (s.elapsed + 1) 20 ≤ max s.elapsed 20
      omega
  · conv_lhs => rw [baselineLoop]
    rw [if_neg h]
    exact le_max_left _ _
termination_by 20 - s.elapsed
decreasing_by all_goals omega

/-- The duty-nudging step does not advance the clock. -/
theorem regulationAdjust_elapsed (target rpm : ℝ) (s1 : RewindState) :
    (regulationAdjust target rpm s1).elapsed = s1.elapsed := by
  unfold regulationAdjust
  split_ifs <;> rfl

/-- The regulation phase never advances the clock past `tension_max_time`
(or past its entry time, whichever is larger). -/
theorem regulationLoop_elapsed_le (sensor : ℕ → Option ℝ) (tmax : ℕ) (cutoff target : ℝ)
    (s : RewindState) :
    (regulationLoop sensor tmax cutoff target s).elapsed ≤ max s.elapsed tmax := by
  by_cases h : s.elapsed < tmax
  · conv_lhs => rw [regulationLoop]
    rw [if_pos h]
    split
    next rpm hr =>
      split
      next hcut =>
        rw [regulationAdjust_elapsed]
        exact le_max_left _ _
      next hcut =>
        refine le_trans (regulationLoop_elapsed_le sensor tmax cutoff target _) ?_
        show max (s.elapsed + 1) tmax ≤ max s.elapsed tmax
        omega
    next hr =>
      refine le_trans (regulationLoop_elapsed_le sensor tmax cutoff target _) ?_
      show max (s.elapsed + 1) tmax ≤ max s.elapsed tmax
      omega
  · conv_lhs => rw [regulationLoop]
    rw [if_neg h]
    exact le_max_left _ _
termination_by tmax - s.elapsed
decreasing_by all_goals omega

/-- C1: with a wheel sensor and a reverse motor bound, for every sensor
behaviour (including one that always returns `none`) `rewind_until_tension`
returns with at most `20 + tmax` deciseconds (`2.0 + tension_max_time`
seconds) elapsed, and on every exit path — baseline not found, cutoff
reached, or regulation timeout — the last motor command issued is `0`. -/
theorem rewind_until_tension_safe (lane : Lane) (sensor : ℕ → Option ℝ) (speed : ℝ)
    (tmax : ℕ) (hmotor : lane.afc_motor_rwd = true) :
    (rewind_until_tension lane true sensor speed tmax).elapsed ≤ 20 + tmax ∧
    (rewind_until_tension lane true sensor speed tmax).cmds.getLast? = some 0 := by
  have hnot : ¬((true : Bool) = false ∨ lane.afc_motor_rwd = false) := by
    simp [hmotor]
  simp only [rewind_until_tension]
  rw [if_neg hnot]
  split
  next s1 heq =>
    have hb := baselineLoop_elapsed_le sensor lane.tension_baseline_min_rpm
      { elapsed := 0, reads := 0,
        cmds := [-(if 1 < calculate_pwm_value lane speed true then 1
                   else calculate_pwm_value lane speed true)],
        pwm := -(if 1 < calculate_pwm_value lane speed true then 1
                 else calculate_pwm_value lane speed true) }
    rw [heq] at hb
    simp at hb
    refine ⟨?_, by rw [List.getLast?_concat]⟩
    show s1.elapsed ≤ 20 + tmax
    omega
  next baseline_rpm s1 heq =>
    have hb := baselineLoop_elapsed_le sensor lane.tension_baseline_min_rpm
      { elapsed := 0, reads := 0,
        cmds := [-(if 1 < calculate_pwm_value lane speed true then 1
                   else calculate_pwm_value lane speed true)],
        pwm := -(if 1 < calculate_pwm_value lane speed true then 1
                 else calculate_pwm_value lane speed true) }
    rw [heq] at hb
    simp at hb
    have hr := regulationLoop_elapsed_le sensor tmax
      (baseline_rpm * lane.tension_drop_fraction) baseline_rpm s1
    refine ⟨?_, by rw [List.getLast?_concat]⟩
    show (regulationLoop sensor tmax (baseline_rpm * lane.tension_drop_fraction)
      baseline_rpm s1).elapsed ≤ 20 + tmax
    have hb' : s1.elapsed ≤ 20 := by omega
    have hmx : max s1.elapsed tmax ≤ 20 + tmax := by omega
    exact le_trans hr hmx

/-- Witness for C1 at the concrete lane, a sensor that always returns
`none`, and `tension_max_time = 10 s` (100 deciseconds). -/
theorem rewind_until_tension_safe_witness :
    lane0.afc_motor_rwd = true ∧
    ((rewind_until_tension lane0 true (fun _ => none) 10 100).elapsed ≤ 20 + 100 ∧
     (rewind_until_tension lane0 true (fun _ => none) 10 100).cmds.getLast? = some 0) :=
  ⟨rfl, rewind_until_tension_safe lane0 (fun _ => none) 10 100 rfl⟩

/-! ### C2: assist-move guard cleanup -/

/-- C2: the code contradicts the claim on one path.  In the
rewind-with-sensor branch of `assist_move` the `yield` sits outside the
`try/finally`, so when the guarded body raises, the generator unwinds at
the `yield` and neither the post-`yield` flag clearing nor the `finally`
block runs: the Exclusion Flag `_wheel_follow_paused` remains set after the
guard exits.  Concretely, with the wheel sensor bound, `rewind = True`,
`assist_active = True` and a body that raises, the flag is still `true`. -/
theorem assist_move_rewind_raise_flag_stuck :
    (assist_move lane0 true (fun _ => none) 100 10 true true true).wheel_follow_paused
      = true := rfl

end AFC
